import Mathlib

/-!
Verification of the PLY point-cloud reader/writer (`pcl::PLYReader` /
`pcl::PLYWriter`, `io/include/pcl/io/ply_io.h`).

The repository ships only the header `ply_io.h`: the class declarations, the
inline dispatching overloads and the `PLYReader` constructor are source code;
the bodies of `readHeader`, `read`, `writeASCII`, `writeBinary`,
`generateHeader`, `setMaskFromFieldsList` and the range-grid callbacks live in
a `.cpp` file that is not part of the repository.  Those missing bodies are
modelled from the specification (each such definition carries a doc comment
starting with `Modelled from the spec:`); everything visible in `ply_io.h`
(constructor initialisers, the inline `write`/`read` overload bodies, the
`generateHeaderBinary`/`generateHeaderASCII` wrappers) is translated directly
from the source.

The low-level PLY tokenizer is outside the core per the specification, so a
parsed file is represented as structured header lines plus a raw byte list for
the body; machine scalars are natural numbers carrying the raw bit patterns
(a `float` is its 32-bit pattern), so that bit-for-bit claims are statements
about these numbers.
-/

/-- PLY scalar datatypes, as in the PLY header grammar. -/
inductive PlyType where
  | int8 | uint8 | int16 | uint16 | int32 | uint32 | float32 | float64
deriving DecidableEq, Repr

/-- Byte width of a PLY scalar type. -/
def PlyType.size : PlyType → Nat
  | .int8 => 1
  | .uint8 => 1
  | .int16 => 2
  | .uint16 => 2
  | .int32 => 4
  | .uint32 => 4
  | .float32 => 4
  | .float64 => 8

/-- One named, typed field of the generic point buffer (a
`sensor_msgs::PointField` restricted to what the PLY writer uses). -/
structure PointField where
  name : String
  ty : PlyType
deriving DecidableEq, Repr

/-- Generic point buffer (`sensor_msgs::PointCloud2`): a field schema plus one
row of raw scalar values per point.  Each value is the raw bit pattern of the
corresponding field, so `rows` is the byte blob of the C++ message split into
per-field scalars. -/
structure PointCloud2 where
  fields : List PointField
  rows : List (List Nat)
deriving DecidableEq, Repr

/-- Names of the fields of a cloud, in declaration order. -/
def cloudFieldNames (c : PointCloud2) : List String :=
  c.fields.map (fun f => f.name)

/-- Field Registry: the semantic field names the codec recognizes, in the
writer's canonical order (position, normal, color, intensity). -/
def knownFieldNames : List String :=
  ["x", "y", "z", "normal_x", "normal_y", "normal_z", "red", "green", "blue", "intensity"]

/-- Field Registry entries paired with their mask bit index. -/
def knownFieldsIdx : List (Nat × String) :=
  [(0, "x"), (1, "y"), (2, "z"), (3, "normal_x"), (4, "normal_y"), (5, "normal_z"),
   (6, "red"), (7, "green"), (8, "blue"), (9, "intensity")]

/-- Modelled from the spec: the per-name bit contributed to the writer mask by
`PLYWriter::setMaskFromFieldsList` (body not in the repository).  Registry
fields map to their semantic bit; unknown names contribute nothing. -/
def fieldBit (n : String) : Nat :=
  if n = "x" then 1
  else if n = "y" then 2
  else if n = "z" then 4
  else if n = "normal_x" then 8
  else if n = "normal_y" then 16
  else if n = "normal_z" then 32
  else if n = "red" then 64
  else if n = "green" then 128
  else if n = "blue" then 256
  else if n = "intensity" then 512
  else 0

/-- Whether a property name is in the Field Registry. -/
def isKnownField (n : String) : Bool :=
  fieldBit n != 0

/-- Modelled from the spec: `PLYWriter::setMaskFromFieldsList` (body not in
the repository).  Derives the bitmask of requested semantic fields from a
field-name list; unknown requested names are ignored. -/
def setMaskFromFieldsList (fields_list : List String) : Nat :=
  fields_list.foldl (fun m n => m ||| fieldBit n) 0

/-- Modelled from the spec: the geometry-mandatory check — a mask whose
geometry bits (x, y, z) are all zero is rejected. -/
def geometryMaskZero (mask : Nat) : Bool :=
  !(mask.testBit 0 || mask.testBit 1 || mask.testBit 2)

/-- Modelled from the spec: the registry-known fields that a write emits, in
canonical order, selected by the mask; for each set bit the first cloud field
with that name is used. -/
def emittedKnown (mask : Nat) (fs : List PointField) : List PointField :=
  knownFieldsIdx.filterMap
    (fun p => if mask.testBit p.1 then fs.find? (fun f => f.name == p.2) else none)

/-- Modelled from the spec: the full emitted field list of a write — the
masked registry fields in canonical order followed by the unknown fields,
which are preserved verbatim for round-tripping. -/
def emittedFields (mask : Nat) (fs : List PointField) : List PointField :=
  emittedKnown mask fs ++ fs.filter (fun f => !(isKnownField f.name))

/-- Little-endian encoding of a scalar bit pattern into `w` bytes. -/
def encodeLE : Nat → Nat → List Nat
  | 0, _ => []
  | w + 1, v => (v % 256) :: encodeLE w (v / 256)

/-- Little-endian decoding of a byte list into a scalar bit pattern. -/
def decodeLE : List Nat → Nat
  | [] => 0
  | b :: bs => b + 256 * decodeLE bs

/-- Row stride: the summed byte widths of a field list. -/
def strideOf (ds : List PointField) : Nat :=
  (ds.map (fun d => d.ty.size)).sum

/-- Value of the first field with a given name in a zipped (field, value) row;
0 when absent. -/
def lookupVal (zipped : List (PointField × Nat)) (n : String) : Nat :=
  match zipped.find? (fun q => q.1.name == n) with
  | some q => q.2
  | none => 0

/-- Modelled from the spec: the binary Content Serializer for one row — the
raw little-endian byte dump of the row's emitted fields in canonical order,
no padding, no delimiter. -/
def serializeRowBinary (emitted : List PointField) (zipped : List (PointField × Nat)) : List Nat :=
  emitted.flatMap (fun d => encodeLE d.ty.size (lookupVal zipped d.name))

/-- Modelled from the spec: the ASCII Content Serializer for one row — one
(name, raw value) pair per emitted field in canonical order.  Decimal
formatting with the caller's precision is the text layer over these values. -/
def serializeRowASCII (emitted : List PointField) (zipped : List (PointField × Nat)) :
    List (String × Nat) :=
  emitted.map (fun d => (d.name, lookupVal zipped d.name))

/-- Structured PLY header line, the output of the header tokenizer. -/
inductive HeaderLine where
  | magic
  | format (binary : Bool) (version : Nat)
  | comment (text : String)
  | element (name : String) (count : Nat)
  | property (ty : PlyType) (name : String)
  | propertyList (sizeTy : PlyType) (elemTy : PlyType) (name : String)
  | endHeader
deriving DecidableEq, Repr

/-- Camera element property names (3 origin, then the 3x3 orientation). -/
def cameraPropNames : List String :=
  ["view_px", "view_py", "view_pz", "x_axisx", "x_axisy", "x_axisz",
   "y_axisx", "y_axisy", "y_axisz", "z_axisx", "z_axisy", "z_axisz"]

/-- Header block declaring the camera element with its 12 float properties. -/
def cameraElementLines : List HeaderLine :=
  HeaderLine.element "camera" 1 ::
    cameraPropNames.map (fun n => HeaderLine.property PlyType.float32 n)

/-- Header block declaring the range_grid element. -/
def rangeGridElementLines (n : Nat) : List HeaderLine :=
  [HeaderLine.element "range_grid" n,
   HeaderLine.propertyList PlyType.uint8 PlyType.int32 "vertex_indices"]

/-- Modelled from the spec: `PLYWriter::generateHeader` (body not in the
repository).  Emits magic line, format line (this is the only place the
binary flag is consulted), a comment, the vertex element with the masked
properties in canonical order, then a camera or range_grid block, then
end_header. -/
def generateHeader (cloud : PointCloud2) (_origin : List Nat) (_orientation : List Nat)
    (binary : Bool) (use_camera : Bool) (valid_points : Nat) : List HeaderLine :=
  HeaderLine.magic ::
  HeaderLine.format binary 1 ::
  HeaderLine.comment "PCL generated" ::
  HeaderLine.element "vertex" valid_points ::
  ((emittedFields (setMaskFromFieldsList (cloudFieldNames cloud)) cloud.fields).map
      (fun f => HeaderLine.property f.ty f.name) ++
    (if use_camera then cameraElementLines else rangeGridElementLines cloud.rows.length) ++
    [HeaderLine.endHeader])

/-- Source (`ply_io.h` lines 322-330): `PLYWriter::generateHeaderBinary`
forwards to `generateHeader` with the binary flag set. -/
def generateHeaderBinary (cloud : PointCloud2) (origin : List Nat) (orientation : List Nat)
    (valid_points : Nat) (use_camera : Bool) : List HeaderLine :=
  generateHeader cloud origin orientation true use_camera valid_points

/-- Source (`ply_io.h` lines 335-343): `PLYWriter::generateHeaderASCII`
forwards to `generateHeader` with the binary flag cleared. -/
def generateHeaderASCII (cloud : PointCloud2) (origin : List Nat) (orientation : List Nat)
    (valid_points : Nat) (use_camera : Bool) : List HeaderLine :=
  generateHeader cloud origin orientation false use_camera valid_points

/-- Pad or truncate a list to exactly `k` entries, the way a fixed-size Eigen
vector always carries exactly its dimension of scalars. -/
def padTo (k : Nat) (l : List Nat) : List Nat :=
  l.take k ++ List.replicate (k - l.length) 0

/-- Modelled from the spec: the binary camera block — 12 floats (origin x y z
then the 3x3 orientation row-major) appended after all vertex rows. -/
def cameraBody (origin : List Nat) (orientation : List Nat) : List Nat :=
  (padTo 3 origin ++ padTo 9 orientation).flatMap (encodeLE 4)

/-- Content of one written PLY file, before the external text/file layer.
The binary body is a raw byte list; ASCII data lines are rows of
(field name, raw value) pairs still to be decimal-formatted. -/
structure PlyFileContent where
  header : List HeaderLine
  binaryBody : List Nat
  asciiRows : List (List (String × Nat))
  rangeGrid : List (List Nat)
  camera : Option (List Nat)
  precision : Nat
deriving DecidableEq, Repr

/-- Modelled from the spec: `PLYWriter::writeBinary` (body not in the
repository).  Computes the mask (rejecting missing geometry before any bytes
are produced), generates the binary header with the camera element, and dumps
each row's masked fields followed by the camera block. -/
def writeBinary (_file_name : String) (cloud : PointCloud2)
    (origin : List Nat) (orientation : List Nat) : Int × Option PlyFileContent :=
  let mask := setMaskFromFieldsList (cloudFieldNames cloud)
  if geometryMaskZero mask then (-1, none)
  else
    let emitted := emittedFields mask cloud.fields
    (0, some ⟨generateHeader cloud origin orientation true true cloud.rows.length,
              cloud.rows.flatMap (fun row => serializeRowBinary emitted (cloud.fields.zip row)) ++
                cameraBody origin orientation,
              [], [], none, 0⟩)

/-- Modelled from the spec: per-row range_grid lists for the ASCII writer —
for each original row, the singleton list holding its index among the valid
rows written so far, or the empty list for an invalid row. -/
def rangeGridLists (valid_point : List Nat → Bool) : List (List Nat) → Nat → List (List Nat)
  | [], _ => []
  | r :: rs, k =>
    if valid_point r then [k] :: rangeGridLists valid_point rs (k + 1)
    else [] :: rangeGridLists valid_point rs k

/-- Modelled from the spec: `PLYWriter::writeContentWithRangeGridASCII` (body
not in the repository).  Serializes only the rows passing the valid-point
predicate, also producing the range_grid lists and the count of valid rows
that the header generator must use. -/
def writeContentWithRangeGridASCII (valid_point : List Nat → Bool)
    (emitted : List PointField) (cloud : PointCloud2) :
    List (List (String × Nat)) × List (List Nat) × Nat :=
  let validRows := cloud.rows.filter valid_point
  (validRows.map (fun row => serializeRowASCII emitted (cloud.fields.zip row)),
   rangeGridLists valid_point cloud.rows 0,
   validRows.length)

/-- Modelled from the spec: `PLYWriter::writeASCII` (body not in the
repository).  Computes the mask (rejecting missing geometry before any output
is produced); with a camera element it writes every row and the 12 camera
values, without one it writes only valid rows plus the range_grid element,
generating the header with the true valid count.  The valid-point predicate
is the pluggable collaborator the spec prescribes. -/
def writeASCII (valid_point : List Nat → Bool) (_file_name : String) (cloud : PointCloud2)
    (origin : List Nat) (orientation : List Nat) (precision : Nat) (use_camera : Bool) :
    Int × Option PlyFileContent :=
  let mask := setMaskFromFieldsList (cloudFieldNames cloud)
  if geometryMaskZero mask then (-1, none)
  else
    let emitted := emittedFields mask cloud.fields
    if use_camera then
      (0, some ⟨generateHeader cloud origin orientation false true cloud.rows.length,
                [],
                cloud.rows.map (fun row => serializeRowASCII emitted (cloud.fields.zip row)),
                [], some (padTo 3 origin ++ padTo 9 orientation), precision⟩)
    else
      let content := writeContentWithRangeGridASCII valid_point emitted cloud
      (0, some ⟨generateHeader cloud origin orientation false false content.2.2,
                [], content.1, content.2.1, none, precision⟩)

/-- Source (`ply_io.h` lines 400-411): the convenience `PLYWriter::write`
overload — binary requests go to `writeBinary`, everything else to
`writeASCII` with the default precision 8 and the caller's use_camera flag. -/
def write (valid_point : List Nat → Bool) (file_name : String) (cloud : PointCloud2)
    (origin : List Nat) (orientation : List Nat) (binary : Bool) (use_camera : Bool) :
    Int × Option PlyFileContent :=
  if binary then
    writeBinary file_name cloud origin orientation
  else
    writeASCII valid_point file_name cloud origin orientation 8 use_camera

/-- Reader-side input: the tokenizer either cannot open the file, rejects the
header grammar, or delivers the parsed header lines plus the raw body bytes. -/
inductive PlyInput where
  | unreadable
  | malformed
  | parsed (header : List HeaderLine) (body : List Nat)
deriving DecidableEq, Repr

/-- Format line of a header, when present. -/
def formatOf (h : List HeaderLine) : Option (Bool × Nat) :=
  match h.find? (fun l => match l with | HeaderLine.format _ _ => true | _ => false) with
  | some (HeaderLine.format b v) => some (b, v)
  | _ => none

/-- Scalar property declarations of the vertex element, in order, stopping at
the first non-property line after `element vertex`. -/
def collectProps : List HeaderLine → List PointField
  | HeaderLine.property t n :: rest => ⟨n, t⟩ :: collectProps rest
  | _ => []

/-- Field declarations of the vertex element of a header. -/
def vertexDecls : List HeaderLine → List PointField
  | [] => []
  | HeaderLine.element nm _ :: rest =>
    if nm = "vertex" then collectProps rest else vertexDecls rest
  | _ :: rest => vertexDecls rest

/-- Declared count of the vertex element, when present. -/
def vertexCountOf (h : List HeaderLine) : Option Nat :=
  match h.find? (fun l => match l with
      | HeaderLine.element nm _ => nm == "vertex"
      | _ => false) with
  | some (HeaderLine.element _ n) => some n
  | _ => none

/-- Whether a header line declares the camera element. -/
def isCameraElementLine (l : HeaderLine) : Bool :=
  match l with
  | HeaderLine.element nm _ => nm == "camera"
  | _ => false

/-- Whether a header declares a camera element. -/
def cameraDeclared (h : List HeaderLine) : Bool :=
  h.any isCameraElementLine

/-- Metadata returned by `readHeader`: vertex schema, vertex count, encoding
and format version. -/
structure HeaderMeta where
  decls : List PointField
  count : Nat
  binary : Bool
  version : Nat
deriving DecidableEq, Repr

/-- Modelled from the spec: `PLYReader::readHeader` (body not in the
repository).  Consumes metadata only: fails with -1 on an unreadable file, a
malformed header (including a missing format line) or an unsupported format
version, and returns a positive result with the schema otherwise.  The body
bytes are never inspected. -/
def readHeader : PlyInput → Int × HeaderMeta
  | PlyInput.unreadable => (-1, ⟨[], 0, false, 0⟩)
  | PlyInput.malformed => (-1, ⟨[], 0, false, 0⟩)
  | PlyInput.parsed header _ =>
    match formatOf header with
    | none => (-1, ⟨[], 0, false, 0⟩)
    | some (b, v) =>
      if v = 1 then
        (1, ⟨vertexDecls header, (vertexCountOf header).getD 0, b, v⟩)
      else
        (-1, ⟨[], 0, false, 0⟩)

/-- Decode one row: one scalar per declared field, each consuming the field's
byte width; returns the row and the remaining bytes. -/
def decodeRow : List PointField → List Nat → List Nat × List Nat
  | [], bs => ([], bs)
  | d :: ds, bs =>
    let v := decodeLE (bs.take d.ty.size)
    let rest := decodeRow ds (bs.drop d.ty.size)
    (v :: rest.1, rest.2)

/-- Decode `count` consecutive rows. -/
def decodeRows : Nat → List PointField → List Nat → List (List Nat)
  | 0, _, _ => []
  | n + 1, ds, bs =>
    let r := decodeRow ds bs
    r.1 :: decodeRows n ds r.2

/-- Decode `k` consecutive 4-byte floats (as raw bit patterns). -/
def decodeFloats : Nat → List Nat → List Nat
  | 0, _ => []
  | k + 1, bs => decodeLE (bs.take 4) :: decodeFloats k (bs.drop 4)

/-- Result of a full `PLYReader::read`: return code, point buffer, sensor
origin (a 4-vector of raw float patterns), sensor orientation (a 3x3 matrix
of raw float patterns, row-major), and the PLY version. -/
structure ReadResult where
  res : Int
  cloud : PointCloud2
  origin : List Nat
  orientation : List Nat
  ply_version : Nat
deriving DecidableEq, Repr

/-- Source (`ply_io.h` lines 85-90): the `PLYReader` constructor initialises
`origin_` to `Eigen::Vector4f::Zero ()` and `orientation_` to
`Eigen::Matrix3f::Zero ()` — the zero matrix, every entry the float 0.0f. -/
def readerInitOrigin : List Nat := [0, 0, 0, 0]

/-- Source (`ply_io.h` line 88): the constructor's orientation initialiser,
`Eigen::Matrix3f::Zero ()`. -/
def readerInitOrientation : List Nat := List.replicate 9 0

/-- Raw bit patterns of the identity 3x3 rotation matrix: 1.0f on the
diagonal (pattern 0x3F800000 = 1065353216), 0.0f elsewhere. -/
def identityRotationBits : List Nat :=
  [1065353216, 0, 0, 0, 1065353216, 0, 0, 0, 1065353216]

/-- Modelled from the spec: decoding the camera block — 12 floats after the
vertex rows; the 3 origin values land in `origin_[0..2]` (the fourth Vector4f
entry keeps its constructor value 0) and the 9 orientation values fill the
3x3 matrix, exactly as the 12 scalar camera callbacks of `ply_io.h` lines
238-271 store them. -/
def decodeCamera (bs : List Nat) : List Nat × List Nat :=
  (decodeFloats 3 bs ++ [0], decodeFloats 9 (bs.drop 12))

/-- Empty point buffer. -/
def emptyCloud : PointCloud2 := ⟨[], []⟩

/-- Modelled from the spec: the five-output `PLYReader::read` (body not in
the repository).  Reads the header metadata, fails on any header error or a
body shorter than the declared rows (plus camera block) require, otherwise
decodes the vertex rows against the declared schema and the camera pose when
a camera element is declared; without one the pose keeps the constructor's
zero values. -/
def PLYReader.read (input : PlyInput) : ReadResult :=
  let h := readHeader input
  if h.1 < 0 then ⟨-1, emptyCloud, readerInitOrigin, readerInitOrientation, 0⟩
  else
    match input with
    | PlyInput.parsed header body =>
      let decls := h.2.decls
      let count := h.2.count
      let vertexBytes := count * strideOf decls
      let needed := vertexBytes + (if cameraDeclared header then 48 else 0)
      if body.length < needed then
        ⟨-1, emptyCloud, readerInitOrigin, readerInitOrientation, 0⟩
      else
        let rows := decodeRows count decls body
        if cameraDeclared header then
          let pose := decodeCamera (body.drop vertexBytes)
          ⟨0, ⟨decls, rows⟩, pose.1, pose.2, 1⟩
        else
          ⟨0, ⟨decls, rows⟩, readerInitOrigin, readerInitOrientation, 0⟩
    | _ => ⟨-1, emptyCloud, readerInitOrigin, readerInitOrientation, 0⟩

/-- Source (`ply_io.h` lines 136-143): the two-argument `PLYReader::read`
overload declares local origin, orientation and version variables, forwards
to the five-output read, and returns its result code with the filled cloud,
discarding the locals. -/
def read2 (input : PlyInput) : Int × PointCloud2 :=
  let r := PLYReader.read input
  (r.res, r.cloud)

/-- Range-Grid Assembler state: sealed lists so far, the list being built,
its declared length, and the error flag. -/
structure RangeGridState where
  grid : List (List Int)
  current : List Int
  declSize : Nat
  err : Bool
deriving DecidableEq, Repr

/-- Modelled from the spec: `PLYReader::rangeGridVertexIndicesBeginCallback`
(body not in the repository).  On list-begin, start a new empty list and
record its declared length. -/
def rangeGridVertexIndicesBeginCallback (size : Nat) (s : RangeGridState) : RangeGridState :=
  ⟨s.grid, [], size, s.err⟩

/-- Modelled from the spec: `PLYReader::rangeGridVertexIndicesElementCallback`
(body not in the repository).  Appends one vertex index to the current list;
an element arriving beyond the declared length is an error. -/
def rangeGridVertexIndicesElementCallback (vertex_index : Int) (s : RangeGridState) :
    RangeGridState :=
  if s.err then s
  else if s.current.length < s.declSize then
    ⟨s.grid, s.current ++ [vertex_index], s.declSize, false⟩
  else
    ⟨s.grid, s.current, s.declSize, true⟩

/-- Modelled from the spec: `PLYReader::rangeGridVertexIndicesEndCallback`
(body not in the repository).  On list-end, seal the current list onto the
grid. -/
def rangeGridVertexIndicesEndCallback (s : RangeGridState) : RangeGridState :=
  ⟨s.grid ++ [s.current], s.current, s.declSize, s.err⟩

/-- One range_grid row as the tokenizer drives it: list-begin with the
declared length, one element callback per supplied value, then list-end. -/
def runRangeGridRow (size : Nat) (vals : List Int) (s : RangeGridState) : RangeGridState :=
  rangeGridVertexIndicesEndCallback
    (vals.foldl (fun st v => rangeGridVertexIndicesElementCallback v st)
      (rangeGridVertexIndicesBeginCallback size s))

/-- Whether every field of a cloud is a Field-Registry-known field. -/
def allFieldsKnown (c : PointCloud2) : Bool :=
  c.fields.all (fun f => isKnownField f.name)

/-- Whether a cloud declares at least one geometry field (x, y or z). -/
def hasGeometry (c : PointCloud2) : Bool :=
  (cloudFieldNames c).any (fun n => n == "x" || n == "y" || n == "z")

/-- Structural invariant of the C++ byte blob: every row has one value per
field and every value fits the byte width of its field. -/
def wellFormedCloud (c : PointCloud2) : Bool :=
  c.rows.all (fun row =>
    row.length == c.fields.length &&
      (c.fields.zip row).all (fun q => decide (q.2 < 256 ^ q.1.ty.size)))

/-- Value of field `n` in row `i` of a cloud (the first field with that name),
or `none` when the row or the field is absent. -/
def fieldValue (c : PointCloud2) (i : Nat) (n : String) : Option Nat :=
  match c.rows[i]? with
  | none => none
  | some row => ((c.fields.zip row).find? (fun q => q.1.name == n)).map (fun q => q.2)

/-- Round-trip property of claim C1, as stated: `writeBinary` succeeds and
produces content that `read` decodes back to a buffer with the same number of
rows and, for every field of the original cloud, bit-for-bit the same value
in every row. -/
def binaryRoundTrip (c : PointCloud2) (origin : List Nat) (orientation : List Nat) : Prop :=
  ∃ out, writeBinary "file.ply" c origin orientation = (0, some out) ∧
    ((PLYReader.read (PlyInput.parsed out.header out.binaryBody)).res = 0 ∧
     (PLYReader.read (PlyInput.parsed out.header out.binaryBody)).cloud.rows.length = c.rows.length ∧
     ∀ i n, n ∈ cloudFieldNames c →
       fieldValue (PLYReader.read (PlyInput.parsed out.header out.binaryBody)).cloud i n = fieldValue c i n)

/-- Names of the vertex properties declared in a header. -/
def headerVertexPropNames (h : List HeaderLine) : List String :=
  (vertexDecls h).map (fun f => f.name)

/-- Point cloud whose only field is registry-known `red`: a counterexample
cloud for the unqualified round-trip claim. -/
def redOnlyCloud : PointCloud2 := ⟨[⟨"red", PlyType.uint8⟩], [[5]]⟩

/-- Concrete parsed PLY file with three float vertex properties and no camera
element; its body is 12 zero bytes (one vertex at the origin). -/
def noCameraFile : PlyInput :=
  PlyInput.parsed
    [HeaderLine.magic, HeaderLine.format false 1, HeaderLine.element "vertex" 1,
     HeaderLine.property PlyType.float32 "x", HeaderLine.property PlyType.float32 "y",
     HeaderLine.property PlyType.float32 "z", HeaderLine.endHeader]
    (List.replicate 12 0)

/-- Concrete cloud with float32 x, y, z fields and one row (bit patterns of
1.0f, 0.0f and 2.0f), used to witness the round-trip theorem. -/
def xyzCloud : PointCloud2 :=
  ⟨[⟨"x", PlyType.float32⟩, ⟨"y", PlyType.float32⟩, ⟨"z", PlyType.float32⟩],
   [[1065353216, 0, 1073741824]]⟩

/-- Whether a header line is the format line. -/
def isFormatLine (l : HeaderLine) : Bool :=
  match l with
  | HeaderLine.format _ _ => true
  | _ => false

/-- Whether a parsed header carries a supported format version (1.0). -/
def headerSupported (h : List HeaderLine) : Bool :=
  match formatOf h with
  | some (_, v) => v == 1
  | none => false

/-- Failure condition of `readHeader` per the spec's error taxonomy: an
unreadable file, a header the tokenizer rejects, or a parsed header without a
supported format line. -/
def plyHeaderFailure (input : PlyInput) : Prop :=
  input = PlyInput.unreadable ∨ input = PlyInput.malformed ∨
    ∃ h b, input = PlyInput.parsed h b ∧ headerSupported h = false

/-- Minimal well-formed header, used to witness the readHeader contract. -/
def goodHeaderLines : List HeaderLine :=
  [HeaderLine.magic, HeaderLine.format false 1, HeaderLine.element "vertex" 0,
   HeaderLine.endHeader]

/-- Concrete ASCII output of writing the witness cloud with the range_grid
element (valid-point filter path). -/
def xyzAsciiOut : PlyFileContent :=
  ((writeASCII (fun _ => true) "file.ply" xyzCloud [] [] 8 false).2).getD
    ⟨[], [], [], [], none, 0⟩

theorem encodeLE_length (w v : Nat) : (encodeLE w v).length = w := by
  induction w generalizing v with
  | zero => rfl
  | succ w ih => simp [encodeLE, ih]

theorem decodeLE_encodeLE (w v : Nat) (h : v < 256 ^ w) : decodeLE (encodeLE w v) = v := by
  induction w generalizing v with
  | zero =>
    simp [encodeLE, decodeLE]
    omega
  | succ w ih =>
    have hdiv : v / 256 < 256 ^ w := by
      rw [Nat.div_lt_iff_lt_mul (by norm_num)]
      calc v < 256 ^ (w + 1) := h
        _ = 256 ^ w * 256 := by ring
    simp only [encodeLE, decodeLE, ih (v / 256) hdiv]
    omega

theorem encodeLE_append_take (w v : Nat) (rest : List Nat) :
    ((encodeLE w v ++ rest).take w) = encodeLE w v := by
  have := List.take_left (encodeLE w v) rest
  rwa [encodeLE_length] at this

theorem encodeLE_append_drop (w v : Nat) (rest : List Nat) :
    ((encodeLE w v ++ rest).drop w) = rest := by
  have := List.drop_left (encodeLE w v) rest
  rwa [encodeLE_length] at this

theorem testBit_foldl_mask (l : List String) (acc : Nat) (i : Nat) :
    (l.foldl (fun m n => m ||| fieldBit n) acc).testBit i =
      (acc.testBit i || l.any (fun n => (fieldBit n).testBit i)) := by
  induction l generalizing acc with
  | nil => simp
  | cons hd tl ih =>
    simp only [List.foldl_cons, List.any_cons, ih, Nat.testBit_or]
    rw [Bool.or_assoc]

theorem testBit_setMask (l : List String) (i : Nat) :
    (setMaskFromFieldsList l).testBit i = l.any (fun n => (fieldBit n).testBit i) := by
  simp [setMaskFromFieldsList, testBit_foldl_mask]

theorem fieldBit_testBit_idx :
    ∀ p ∈ knownFieldsIdx, (fieldBit p.2).testBit p.1 = true := by
  decide

theorem known_exists_idx (n : String) (h : isKnownField n = true) :
    ∃ p, p ∈ knownFieldsIdx ∧ p.2 = n := by
  unfold isKnownField fieldBit at h
  split_ifs at h with h1 h2 h3 h4 h5 h6 h7 h8 h9 h10
  · exact ⟨(0, "x"), by decide, h1.symm⟩
  · exact ⟨(1, "y"), by decide, h2.symm⟩
  · exact ⟨(2, "z"), by decide, h3.symm⟩
  · exact ⟨(3, "normal_x"), by decide, h4.symm⟩
  · exact ⟨(4, "normal_y"), by decide, h5.symm⟩
  · exact ⟨(5, "normal_z"), by decide, h6.symm⟩
  · exact ⟨(6, "red"), by decide, h7.symm⟩
  · exact ⟨(7, "green"), by decide, h8.symm⟩
  · exact ⟨(8, "blue"), by decide, h9.symm⟩
  · exact ⟨(9, "intensity"), by decide, h10.symm⟩
  · simp at h

theorem testBit_setMask_of_mem (names : List String) (i : Nat) (n : String)
    (hmem : n ∈ names) (hidx : (i, n) ∈ knownFieldsIdx) :
    (setMaskFromFieldsList names).testBit i = true := by
  rw [testBit_setMask]
  exact List.any_of_mem hmem (fieldBit_testBit_idx (i, n) hidx)

theorem find?_zip_map (ds : List PointField) (g : PointField → Nat) (p : PointField → Bool) :
    (ds.zip (ds.map g)).find? (fun q => p q.1) = (ds.find? p).map (fun d => (d, g d)) := by
  induction ds with
  | nil => rfl
  | cons d ds ih =>
    simp only [List.map_cons, List.zip_cons_cons, List.find?_cons]
    cases hp : p d <;> simp [hp, ih, List.find?_cons]

theorem find?_zip_fst (fs : List PointField) (row : List Nat) (p : PointField → Bool)
    (hlen : row.length = fs.length) :
    ((fs.zip row).find? (fun q => p q.1)).map Prod.fst = fs.find? p := by
  induction fs generalizing row with
  | nil => simp
  | cons f fs ih =>
    cases row with
    | nil => simp at hlen
    | cons v row =>
      simp only [List.zip_cons_cons, List.find?_cons]
      cases hp : p f <;> simp [hp]
      exact ih row (by simpa using hlen)

theorem find?_emittedKnown_aux (mask : Nat) (fs : List PointField) (n : String)
    (f₀ : PointField) (hfind : fs.find? (fun f => f.name == n) = some f₀) :
    ∀ ps : List (Nat × String), (∃ i, (i, n) ∈ ps ∧ mask.testBit i = true) →
      ((ps.filterMap (fun p =>
          if mask.testBit p.1 then fs.find? (fun f => f.name == p.2) else none)).find?
        (fun d => d.name == n)) = some f₀ := by
  intro ps
  induction ps with
  | nil => rintro ⟨i, hi, _⟩; simp at hi
  | cons q rest ih =>
    rintro ⟨i, hi, hb⟩
    by_cases hq : q.2 = n ∧ mask.testBit q.1 = true
    · obtain ⟨hqn, hqb⟩ := hq
      rw [List.filterMap_cons]
      simp only [hqb, if_true, hqn, hfind]
      have hname : f₀.name = n := by
        have := List.find?_some hfind
        simpa using this
      simp [List.find?_cons, hname]
    · have hrest : (i, n) ∈ rest := by
        rcases List.mem_cons.mp hi with hi' | hi'
        · cases hi'
          exact absurd ⟨rfl, hb⟩ hq
        · exact hi'
      have htail := ih ⟨i, hrest, hb⟩
      rw [List.filterMap_cons]
      cases hqb : mask.testBit q.1 with
      | false => simpa [hqb] using htail
      | true =>
        have hqn : q.2 ≠ n := fun h => hq ⟨h, hqb⟩
        simp only [if_true]
        cases hf : fs.find? (fun f => f.name == q.2) with
        | none => simpa using htail
        | some f =>
          have hfn : f.name = q.2 := by
            have := List.find?_some hf
            simpa using this
          simp only [List.find?_cons]
          have : (f.name == n) = false := by
            rw [hfn]
            simpa using hqn
          simp [this, htail]

theorem allKnown_filter_nil (c : PointCloud2) (hk : allFieldsKnown c = true) :
    c.fields.filter (fun f => !(isKnownField f.name)) = [] := by
  rw [List.filter_eq_nil_iff]
  intro f hf
  have := (List.all_eq_true.mp hk) f hf
  simp [this]

theorem find?_emittedFields (c : PointCloud2) (n : String) (f₀ : PointField)
    (hk : allFieldsKnown c = true)
    (hmem : n ∈ cloudFieldNames c)
    (hfind : c.fields.find? (fun f => f.name == n) = some f₀) :
    ((emittedFields (setMaskFromFieldsList (cloudFieldNames c)) c.fields).find?
      (fun d => d.name == n)) = some f₀ := by
  have hkn : isKnownField n = true := by
    obtain ⟨f, hf, hfn⟩ := List.mem_map.mp hmem
    have := (List.all_eq_true.mp hk) f hf
    rwa [hfn] at this
  obtain ⟨p, hp, hpn⟩ := known_exists_idx n hkn
  have hbit : (setMaskFromFieldsList (cloudFieldNames c)).testBit p.1 = true := by
    apply testBit_setMask_of_mem _ _ _ hmem
    rw [show (p.1, n) = p from by rw [← hpn]]
    exact hp
  unfold emittedFields
  rw [allKnown_filter_nil c hk, List.append_nil]
  exact find?_emittedKnown_aux _ _ _ _ hfind knownFieldsIdx ⟨p.1, by rw [show (p.1, n) = p from by rw [← hpn]]; exact hp, hbit⟩

theorem mem_emittedKnown_find (mask : Nat) (fs : List PointField) (d : PointField)
    (hd : d ∈ emittedKnown mask fs) :
    fs.find? (fun f => f.name == d.name) = some d := by
  obtain ⟨p, _, hp⟩ := List.mem_filterMap.mp hd
  by_cases hb : mask.testBit p.1 = true
  · rw [if_pos hb] at hp
    have hname : d.name = p.2 := by
      have := List.find?_some hp
      simpa using this
    rw [show (fun f : PointField => f.name == d.name) = (fun f : PointField => f.name == p.2) from by
      funext f; rw [hname]]
    exact hp
  · rw [if_neg hb] at hp
    exact absurd hp (by simp)

theorem mem_emittedFields_find (c : PointCloud2) (d : PointField)
    (hk : allFieldsKnown c = true)
    (hd : d ∈ emittedFields (setMaskFromFieldsList (cloudFieldNames c)) c.fields) :
    c.fields.find? (fun f => f.name == d.name) = some d := by
  unfold emittedFields at hd
  rw [allKnown_filter_nil c hk, List.append_nil] at hd
  exact mem_emittedKnown_find _ _ _ hd

theorem collectProps_map_append (fs : List PointField) (rest : List HeaderLine) :
    collectProps (fs.map (fun f => HeaderLine.property f.ty f.name) ++ rest) =
      fs ++ collectProps rest := by
  induction fs with
  | nil => rfl
  | cons f fs ih => simp [collectProps, ih]

theorem vertexDecls_generateHeader (c : PointCloud2) (o q : List Nat) (b uc : Bool) (vp : Nat) :
    vertexDecls (generateHeader c o q b uc vp) =
      emittedFields (setMaskFromFieldsList (cloudFieldNames c)) c.fields := by
  unfold generateHeader
  simp only [vertexDecls, List.append_assoc, if_true]
  rw [collectProps_map_append]
  cases uc with
  | true => simp [cameraElementLines, collectProps]
  | false => simp [rangeGridElementLines, collectProps]

theorem vertexCountOf_generateHeader (c : PointCloud2) (o q : List Nat) (b uc : Bool) (vp : Nat) :
    vertexCountOf (generateHeader c o q b uc vp) = some vp := by
  unfold generateHeader vertexCountOf
  simp [List.find?_cons]

theorem formatOf_generateHeader (c : PointCloud2) (o q : List Nat) (b uc : Bool) (vp : Nat) :
    formatOf (generateHeader c o q b uc vp) = some (b, 1) := by
  unfold generateHeader formatOf
  simp [List.find?_cons]

theorem cameraDeclared_generateHeader (c : PointCloud2) (o q : List Nat) (b : Bool) (vp : Nat) :
    cameraDeclared (generateHeader c o q b true vp) = true := by
  have hprops : ∀ fs : List PointField,
      (fs.map (fun f => HeaderLine.property f.ty f.name)).any isCameraElementLine = false := by
    intro fs
    induction fs with
    | nil => rfl
    | cons f fs ih => simp [isCameraElementLine, ih]
  unfold generateHeader cameraDeclared
  simp [List.any_append, hprops, cameraElementLines, isCameraElementLine]

theorem serializeRowBinary_length (emitted : List PointField) (zipped : List (PointField × Nat)) :
    (serializeRowBinary emitted zipped).length = strideOf emitted := by
  induction emitted with
  | nil => rfl
  | cons d ds ih =>
    simp [serializeRowBinary, strideOf, encodeLE_length] at ih ⊢
    omega

theorem flatMap_rows_length (rows : List (List Nat)) (emitted : List PointField)
    (fs : List PointField) :
    ((rows.flatMap (fun row => serializeRowBinary emitted (fs.zip row))).length) =
      rows.length * strideOf emitted := by
  induction rows with
  | nil => simp
  | cons r rs ih =>
    simp only [List.flatMap_cons, List.length_append, ih, serializeRowBinary_length,
      List.length_cons]
    ring

theorem padTo_length (k : Nat) (l : List Nat) : (padTo k l).length = k := by
  simp [padTo]
  omega

theorem flatMap_encode4_length (l : List Nat) : (l.flatMap (encodeLE 4)).length = 4 * l.length := by
  induction l with
  | nil => rfl
  | cons v vs ih =>
    simp [List.flatMap_cons, ih, encodeLE_length]
    omega

theorem cameraBody_length (o q : List Nat) : (cameraBody o q).length = 48 := by
  unfold cameraBody
  rw [flatMap_encode4_length]
  simp [padTo_length]

theorem decodeRow_append (ds : List PointField) (g : PointField → Nat) (tail : List Nat)
    (h : ∀ d ∈ ds, g d < 256 ^ d.ty.size) :
    decodeRow ds (ds.flatMap (fun d => encodeLE d.ty.size (g d)) ++ tail) =
      (ds.map g, tail) := by
  induction ds with
  | nil => rfl
  | cons d ds ih =>
    simp only [List.flatMap_cons, List.append_assoc, decodeRow]
    rw [encodeLE_append_take, encodeLE_append_drop,
      decodeLE_encodeLE _ _ (h d (List.mem_cons_self d ds)),
      ih (fun x hx => h x (List.mem_cons_of_mem d hx))]
    rfl

theorem decodeRows_append (rows : List (List Nat)) (emitted : List PointField)
    (fs : List PointField) (tail : List Nat)
    (h : ∀ row ∈ rows, ∀ d ∈ emitted,
      lookupVal (fs.zip row) d.name < 256 ^ d.ty.size) :
    decodeRows rows.length emitted
        (rows.flatMap (fun row => serializeRowBinary emitted (fs.zip row)) ++ tail) =
      rows.map (fun row => emitted.map (fun d => lookupVal (fs.zip row) d.name)) := by
  induction rows with
  | nil => rfl
  | cons r rs ih =>
    simp only [List.flatMap_cons, List.length_cons, decodeRows, List.append_assoc,
      List.map_cons]
    unfold serializeRowBinary
    rw [decodeRow_append _ _ _ (h r (List.mem_cons_self r rs))]
    exact congrArg _ (ih (fun row hrow => h row (List.mem_cons_of_mem r hrow)))

theorem find?_zip_fst_name (fs : List PointField) (row : List Nat) (n : String)
    (hlen : row.length = fs.length) :
    ((fs.zip row).find? (fun q => q.1.name == n)).map Prod.fst =
      fs.find? (fun f => f.name == n) :=
  find?_zip_fst fs row (fun f => f.name == n) hlen

theorem find?_zip_map_name (ds : List PointField) (g : PointField → Nat) (n : String) :
    (ds.zip (ds.map g)).find? (fun q => q.1.name == n) =
      (ds.find? (fun f => f.name == n)).map (fun d => (d, g d)) :=
  find?_zip_map ds g (fun f => f.name == n)

theorem rowLength_of_wf (c : PointCloud2) (hwf : wellFormedCloud c = true)
    (row : List Nat) (hrow : row ∈ c.rows) : row.length = c.fields.length := by
  have h := List.all_eq_true.mp hwf row hrow
  simp only [Bool.and_eq_true, beq_iff_eq] at h
  exact h.1

theorem lookupVal_range (c : PointCloud2) (hwf : wellFormedCloud c = true)
    (hk : allFieldsKnown c = true) (row : List Nat) (hrow : row ∈ c.rows) (d : PointField)
    (hd : d ∈ emittedFields (setMaskFromFieldsList (cloudFieldNames c)) c.fields) :
    lookupVal (c.fields.zip row) d.name < 256 ^ d.ty.size := by
  have hfind := mem_emittedFields_find c d hk hd
  have hlen := rowLength_of_wf c hwf row hrow
  have hfst := find?_zip_fst_name c.fields row d.name hlen
  rw [hfind] at hfst
  cases hzf : (c.fields.zip row).find? (fun q => q.1.name == d.name) with
  | none => rw [hzf] at hfst; simp at hfst
  | some pr =>
    rw [hzf] at hfst
    have hpr1 : pr.1 = d := by simpa using hfst
    have hmem : pr ∈ c.fields.zip row := List.mem_of_find?_eq_some hzf
    have hall := List.all_eq_true.mp hwf row hrow
    simp only [Bool.and_eq_true] at hall
    have h3 := List.all_eq_true.mp hall.2 pr hmem
    have h4 : pr.2 < 256 ^ pr.1.ty.size := of_decide_eq_true h3
    rw [hpr1] at h4
    unfold lookupVal
    rw [hzf]
    exact h4

theorem geometryMaskZero_false_of_hasGeometry (c : PointCloud2)
    (hg : hasGeometry c = true) :
    geometryMaskZero (setMaskFromFieldsList (cloudFieldNames c)) = false := by
  obtain ⟨n, hn, hxyz⟩ := List.any_eq_true.mp hg
  have hcases : n = "x" ∨ n = "y" ∨ n = "z" := by
    simp only [Bool.or_eq_true, beq_iff_eq] at hxyz
    tauto
  unfold geometryMaskZero
  rcases hcases with rfl | rfl | rfl
  · rw [testBit_setMask_of_mem _ 0 "x" hn (by decide)]
    simp
  · rw [testBit_setMask_of_mem _ 1 "y" hn (by decide)]
    simp
  · rw [testBit_setMask_of_mem _ 2 "z" hn (by decide)]
    simp

theorem readHeader_generateHeader (c : PointCloud2) (o q : List Nat) (b uc : Bool)
    (vp : Nat) (body : List Nat) :
    readHeader (PlyInput.parsed (generateHeader c o q b uc vp) body) =
      (1, ⟨emittedFields (setMaskFromFieldsList (cloudFieldNames c)) c.fields, vp, b, 1⟩) := by
  unfold readHeader
  simp [formatOf_generateHeader, vertexDecls_generateHeader, vertexCountOf_generateHeader]

theorem fieldValue_roundtrip (c : PointCloud2) (hwf : wellFormedCloud c = true)
    (hk : allFieldsKnown c = true) (i : Nat) (n : String) (hn : n ∈ cloudFieldNames c) :
    fieldValue
      ⟨emittedFields (setMaskFromFieldsList (cloudFieldNames c)) c.fields,
       c.rows.map (fun row =>
         (emittedFields (setMaskFromFieldsList (cloudFieldNames c)) c.fields).map
           (fun d => lookupVal (c.fields.zip row) d.name))⟩ i n = fieldValue c i n := by
  unfold fieldValue
  simp only [List.getElem?_map]
  cases hri : c.rows[i]? with
  | none => simp
  | some row =>
    simp only [Option.map_some']
    have hrow : row ∈ c.rows := List.getElem?_mem hri
    obtain ⟨f, hf, hfn⟩ := List.mem_map.mp hn
    have hsome : (c.fields.find? (fun f => f.name == n)).isSome := by
      rw [List.find?_isSome]
      exact ⟨f, hf, by simp [hfn]⟩
    obtain ⟨f₀, hfind⟩ := Option.isSome_iff_exists.mp hsome
    have hf₀n : f₀.name = n := by simpa using List.find?_some hfind
    rw [find?_zip_map_name]
    rw [find?_emittedFields c n f₀ hk hn hfind]
    have hlen := rowLength_of_wf c hwf row hrow
    have hfst := find?_zip_fst_name c.fields row n hlen
    rw [hfind] at hfst
    cases hzf : (c.fields.zip row).find? (fun q => q.1.name == n) with
    | none => rw [hzf] at hfst; simp at hfst
    | some pr =>
      rw [hzf] at hfst
      simp only [Option.map_some']
      unfold lookupVal
      rw [hf₀n, hzf]

theorem read_of_writeBinary_content (c : PointCloud2) (origin orientation : List Nat)
    (hwf : wellFormedCloud c = true) (hk : allFieldsKnown c = true) :
    PLYReader.read (PlyInput.parsed
        (generateHeader c origin orientation true true c.rows.length)
        (c.rows.flatMap (fun row => serializeRowBinary
            (emittedFields (setMaskFromFieldsList (cloudFieldNames c)) c.fields)
            (c.fields.zip row)) ++ cameraBody origin orientation)) =
      ⟨0,
       ⟨emittedFields (setMaskFromFieldsList (cloudFieldNames c)) c.fields,
        c.rows.map (fun row =>
          (emittedFields (setMaskFromFieldsList (cloudFieldNames c)) c.fields).map
            (fun d => lookupVal (c.fields.zip row) d.name))⟩,
       (decodeCamera (cameraBody origin orientation)).1,
       (decodeCamera (cameraBody origin orientation)).2, 1⟩ := by
  have hrange : ∀ row ∈ c.rows,
      ∀ d ∈ emittedFields (setMaskFromFieldsList (cloudFieldNames c)) c.fields,
      lookupVal (c.fields.zip row) d.name < 256 ^ d.ty.size :=
    fun row hrow d hd => lookupVal_range c hwf hk row hrow d hd
  have hblen : (c.rows.flatMap (fun row => serializeRowBinary
      (emittedFields (setMaskFromFieldsList (cloudFieldNames c)) c.fields)
      (c.fields.zip row)) ++ cameraBody origin orientation).length =
      c.rows.length * strideOf (emittedFields (setMaskFromFieldsList (cloudFieldNames c)) c.fields) + 48 := by
    rw [List.length_append, flatMap_rows_length, cameraBody_length]
  have hdropcam : (c.rows.flatMap (fun row => serializeRowBinary
      (emittedFields (setMaskFromFieldsList (cloudFieldNames c)) c.fields)
      (c.fields.zip row)) ++ cameraBody origin orientation).drop
        (c.rows.length * strideOf (emittedFields (setMaskFromFieldsList (cloudFieldNames c)) c.fields)) =
      cameraBody origin orientation := by
    have h := List.drop_left (c.rows.flatMap (fun row => serializeRowBinary
      (emittedFields (setMaskFromFieldsList (cloudFieldNames c)) c.fields)
      (c.fields.zip row))) (cameraBody origin orientation)
    rwa [flatMap_rows_length] at h
  have hrows := decodeRows_append c.rows
    (emittedFields (setMaskFromFieldsList (cloudFieldNames c)) c.fields) c.fields
    (cameraBody origin orientation) hrange
  unfold PLYReader.read
  rw [readHeader_generateHeader]
  simp only [cameraDeclared_generateHeader, if_true, hblen, Nat.lt_irrefl, if_false,
    hdropcam, hrows]
  simp [serializeRowBinary]

/-- C1 (amended): for every well-formed point cloud whose fields are all
Field-Registry-known fields and which declares at least one geometry field
(x, y or z), writing it with `PLYWriter::writeBinary` and then reading the
produced content back with `PLYReader::read` yields a point buffer with the
same number of rows whose field values are bit-for-bit equal to the original,
for every field of the original cloud. -/
theorem writeBinary_read_roundtrip (c : PointCloud2) (origin orientation : List Nat)
    (hwf : wellFormedCloud c = true) (hk : allFieldsKnown c = true)
    (hg : hasGeometry c = true) :
    binaryRoundTrip c origin orientation := by
  have hmask := geometryMaskZero_false_of_hasGeometry c hg
  have hwrite : writeBinary "file.ply" c origin orientation =
      (0, some ⟨generateHeader c origin orientation true true c.rows.length,
        c.rows.flatMap (fun row => serializeRowBinary
            (emittedFields (setMaskFromFieldsList (cloudFieldNames c)) c.fields)
            (c.fields.zip row)) ++ cameraBody origin orientation,
        [], [], none, 0⟩) := by
    unfold writeBinary
    simp [hmask]
  refine ⟨_, hwrite, ?_⟩
  rw [read_of_writeBinary_content c origin orientation hwf hk]
  refine ⟨rfl, by simp, ?_⟩
  intro i n hn
  exact fieldValue_roundtrip c hwf hk i n hn

/-- Witness for the round-trip theorem: its hypotheses hold for the concrete
x/y/z cloud and the conclusion follows by applying the theorem there. -/
theorem writeBinary_read_roundtrip_witness :
    wellFormedCloud xyzCloud = true ∧ allFieldsKnown xyzCloud = true ∧
      hasGeometry xyzCloud = true ∧ binaryRoundTrip xyzCloud [0, 0, 0, 0] [0, 0, 0, 0] :=
  ⟨by decide, by decide, by decide,
    writeBinary_read_roundtrip xyzCloud [0, 0, 0, 0] [0, 0, 0, 0]
      (by decide) (by decide) (by decide)⟩

/-- Counterexample to C1 as literally stated: the cloud whose only field is
the registry-known `red` has a mask with no geometry bit set, so
`PLYWriter::writeBinary` rejects it before producing any bytes and the round
trip fails — the claim needs the geometry fields to be present. -/
theorem writeBinary_read_roundtrip_cex :
    ¬ binaryRoundTrip redOnlyCloud [0, 0, 0, 0] [0, 0, 0, 0] := by
  intro h
  obtain ⟨out, h1, _⟩ := h
  have h2 : writeBinary "file.ply" redOnlyCloud [0, 0, 0, 0] [0, 0, 0, 0] = (-1, none) := by
    decide
  rw [h2] at h1
  simp at h1

/-- C2: `PLYReader::readHeader` returns a negative result (-1) exactly when
the file is unreadable, the header is malformed, or the format version is
unsupported; it returns a positive result on success; and in all cases its
result depends only on the header, never on the point body. -/
theorem readHeader_error_characterization (input : PlyInput) :
    ((readHeader input).1 = -1 ∨ (readHeader input).1 = 1) ∧
    ((readHeader input).1 < 0 ↔ plyHeaderFailure input) ∧
    (¬ plyHeaderFailure input → 0 < (readHeader input).1) ∧
    (∀ h b b', readHeader (PlyInput.parsed h b) = readHeader (PlyInput.parsed h b')) := by
  cases input with
  | unreadable =>
    refine ⟨Or.inl rfl, ?_, ?_, fun h b b' => rfl⟩
    · simp [readHeader, plyHeaderFailure]
    · intro hnb
      exact absurd (Or.inl rfl) hnb
  | malformed =>
    refine ⟨Or.inl rfl, ?_, ?_, fun h b b' => rfl⟩
    · simp [readHeader, plyHeaderFailure]
    · intro hnb
      exact absurd (Or.inr (Or.inl rfl)) hnb
  | parsed hd bd =>
    cases hf : formatOf hd with
    | none =>
      have hrh : readHeader (PlyInput.parsed hd bd) = (-1, ⟨[], 0, false, 0⟩) := by
        simp [readHeader, hf]
      have hfail : plyHeaderFailure (PlyInput.parsed hd bd) :=
        Or.inr (Or.inr ⟨hd, bd, rfl, by unfold headerSupported; rw [hf]⟩)
      refine ⟨Or.inl (by rw [hrh]), ?_, ?_, fun h b b' => rfl⟩
      · rw [hrh]
        exact ⟨fun _ => hfail, fun _ => by norm_num⟩
      · intro hnb
        exact absurd hfail hnb
    | some p =>
      obtain ⟨bb, v⟩ := p
      by_cases hv : v = 1
      · subst hv
        have hrh : readHeader (PlyInput.parsed hd bd) =
            (1, ⟨vertexDecls hd, (vertexCountOf hd).getD 0, bb, 1⟩) := by
          simp [readHeader, hf]
        have hsup : headerSupported hd = true := by
          unfold headerSupported
          rw [hf]
          rfl
        have hnofail : ¬ plyHeaderFailure (PlyInput.parsed hd bd) := by
          rintro (h | h | ⟨h', b', heq, hbad⟩)
          · exact PlyInput.noConfusion h
          · exact PlyInput.noConfusion h
          · injection heq with h1 h2
            subst h1
            rw [hsup] at hbad
            exact Bool.noConfusion hbad
        refine ⟨Or.inr (by rw [hrh]), ?_, ?_, fun h b b' => rfl⟩
        · rw [hrh]
          constructor
          · intro hlt
            norm_num at hlt
          · intro hfail
            exact absurd hfail hnofail
        · intro _
          rw [hrh]
          norm_num
      · have hrh : readHeader (PlyInput.parsed hd bd) = (-1, ⟨[], 0, false, 0⟩) := by
          simp [readHeader, hf, hv]
        have hfail : plyHeaderFailure (PlyInput.parsed hd bd) :=
          Or.inr (Or.inr ⟨hd, bd, rfl, by
            unfold headerSupported
            rw [hf]
            simp [hv]⟩)
        refine ⟨Or.inl (by rw [hrh]), ?_, ?_, fun h b b' => rfl⟩
        · rw [hrh]
          exact ⟨fun _ => hfail, fun _ => by norm_num⟩
        · intro hnb
          exact absurd hfail hnb

/-- Witness for the readHeader contract: a minimal well-formed header is not
a failure input and the theorem yields a positive result for it. -/
theorem readHeader_error_characterization_witness :
    0 < (readHeader (PlyInput.parsed goodHeaderLines [])).1 :=
  (readHeader_error_characterization (PlyInput.parsed goodHeaderLines [])).2.2.1 (by
    rintro (h | h | ⟨hd, b, heq, hbad⟩)
    · exact PlyInput.noConfusion h
    · exact PlyInput.noConfusion h
    · injection heq with h1 h2
      subst h1
      exact absurd hbad (by decide))

/-- C3 (code evaluation at the failing input): reading a valid PLY file that
declares no camera element succeeds and returns the zero origin, but the
returned orientation is the zero 3x3 matrix — the `PLYReader` constructor
initialises `orientation_` with `Eigen::Matrix3f::Zero ()` and no camera
callback ever fires — which is not the identity rotation that the claim (and
the reader's own documentation of `loadPLYFile`) promises. -/
theorem read_no_camera_orientation_is_zero :
    (PLYReader.read noCameraFile).res = 0 ∧
    (PLYReader.read noCameraFile).origin = [0, 0, 0, 0] ∧
    (PLYReader.read noCameraFile).orientation = readerInitOrientation ∧
    readerInitOrientation ≠ identityRotationBits := by
  refine ⟨by decide, by decide, by decide, by decide⟩

/-- C4: a write request whose field list yields a mask with none of the
geometry bits (x, y, z) set is rejected at mask-computation time — both the
ASCII and the binary writer return -1 with no output content produced. -/
theorem write_fails_without_geometry (valid_point : List Nat → Bool) (file_name : String)
    (c : PointCloud2) (origin orientation : List Nat) (precision : Nat) (use_camera : Bool)
    (hmask : geometryMaskZero (setMaskFromFieldsList (cloudFieldNames c)) = true) :
    writeASCII valid_point file_name c origin orientation precision use_camera = (-1, none) ∧
      writeBinary file_name c origin orientation = (-1, none) := by
  constructor
  · unfold writeASCII
    simp [hmask]
  · unfold writeBinary
    simp [hmask]

/-- Witness for the geometry-mask rejection: the red-only cloud yields a mask
without geometry bits and both writers reject it. -/
theorem write_fails_without_geometry_witness :
    geometryMaskZero (setMaskFromFieldsList (cloudFieldNames redOnlyCloud)) = true ∧
      (writeASCII (fun _ => true) "file.ply" redOnlyCloud [] [] 8 true = (-1, none) ∧
        writeBinary "file.ply" redOnlyCloud [] [] = (-1, none)) :=
  ⟨by decide,
    write_fails_without_geometry (fun _ => true) "file.ply" redOnlyCloud [] [] 8 true
      (by decide)⟩

/-- C5: for every cloud, pose, valid-point count and use_camera flag, the
binary and ASCII headers declare the same elements and properties in the same
order — deleting the format line leaves byte-identical headers — and they
differ exactly in that format line. -/
theorem generateHeader_binary_ascii_agree (c : PointCloud2) (origin orientation : List Nat)
    (valid_points : Nat) (use_camera : Bool) :
    ((generateHeaderBinary c origin orientation valid_points use_camera).filter
        (fun l => !(isFormatLine l)) =
      (generateHeaderASCII c origin orientation valid_points use_camera).filter
        (fun l => !(isFormatLine l))) ∧
    (generateHeaderBinary c origin orientation valid_points use_camera).find? isFormatLine =
      some (HeaderLine.format true 1) ∧
    (generateHeaderASCII c origin orientation valid_points use_camera).find? isFormatLine =
      some (HeaderLine.format false 1) := by
  unfold generateHeaderBinary generateHeaderASCII generateHeader
  refine ⟨?_, ?_, ?_⟩
  · simp [List.filter_cons, isFormatLine]
  · simp [List.find?_cons, isFormatLine]
  · simp [List.find?_cons, isFormatLine]

/-- C6: the convenience `PLYWriter::write` dispatches exactly — a binary
request returns `writeBinary`'s result on the same arguments, anything else
returns `writeASCII`'s result with the default decimal precision 8 and the
caller's use_camera flag. -/
theorem write_dispatch (valid_point : List Nat → Bool) (file_name : String) (c : PointCloud2)
    (origin orientation : List Nat) (use_camera : Bool) :
    write valid_point file_name c origin orientation true use_camera =
      writeBinary file_name c origin orientation ∧
    write valid_point file_name c origin orientation false use_camera =
      writeASCII valid_point file_name c origin orientation 8 use_camera :=
  ⟨rfl, rfl⟩

theorem foldl_rangeGrid_fill (vals : List Int) :
    ∀ (g : List (List Int)) (cur : List Int) (L : Nat), cur.length + vals.length ≤ L →
      vals.foldl (fun st v => rangeGridVertexIndicesElementCallback v st) ⟨g, cur, L, false⟩ =
        ⟨g, cur ++ vals, L, false⟩ := by
  induction vals with
  | nil =>
    intro g cur L _
    simp
  | cons v vs ih =>
    intro g cur L hle
    simp only [List.foldl_cons]
    have hstep : rangeGridVertexIndicesElementCallback v ⟨g, cur, L, false⟩ =
        ⟨g, cur ++ [v], L, false⟩ := by
      unfold rangeGridVertexIndicesElementCallback
      simp only [List.length_cons] at hle
      simp [show cur.length < L from by omega]
    rw [hstep, ih g (cur ++ [v]) L (by simp at hle ⊢; omega)]
    simp

/-- C7: a range_grid list row whose declared length is L decodes, when
exactly L element values are supplied, to that list of L values sealed onto
the grid in order with no error, while supplying an (L+1)-th element value
raises the error flag. -/
theorem rangeGrid_exact_and_overflow (s : RangeGridState) (vals : List Int) (v : Int)
    (hs : s.err = false) :
    ((runRangeGridRow vals.length vals s).err = false ∧
     (runRangeGridRow vals.length vals s).grid = s.grid ++ [vals] ∧
     (runRangeGridRow vals.length vals s).current.length = vals.length) ∧
    (runRangeGridRow vals.length (vals ++ [v]) s).err = true := by
  have hbegin : rangeGridVertexIndicesBeginCallback vals.length s =
      ⟨s.grid, [], vals.length, false⟩ := by
    unfold rangeGridVertexIndicesBeginCallback
    rw [hs]
  have hfill := foldl_rangeGrid_fill vals s.grid [] vals.length (by simp)
  constructor
  · unfold runRangeGridRow
    rw [hbegin, hfill]
    unfold rangeGridVertexIndicesEndCallback
    simp
  · unfold runRangeGridRow
    rw [hbegin, List.foldl_append, hfill]
    have hover : rangeGridVertexIndicesElementCallback v ⟨s.grid, [] ++ vals, vals.length, false⟩ =
        ⟨s.grid, [] ++ vals, vals.length, true⟩ := by
      unfold rangeGridVertexIndicesElementCallback
      simp
    simp only [List.foldl_cons, List.foldl_nil, hover]
    unfold rangeGridVertexIndicesEndCallback
    simp

/-- Witness for the range-grid theorem: a concrete row of declared length 2
with values [7, 9] decodes exactly, and a third value errors. -/
theorem rangeGrid_exact_and_overflow_witness :
    (⟨[], [], 0, false⟩ : RangeGridState).err = false ∧
      (((runRangeGridRow 2 [7, 9] ⟨[], [], 0, false⟩).err = false ∧
        (runRangeGridRow 2 [7, 9] ⟨[], [], 0, false⟩).grid = [] ++ [[7, 9]] ∧
        (runRangeGridRow 2 [7, 9] ⟨[], [], 0, false⟩).current.length = 2) ∧
       (runRangeGridRow 2 ([7, 9] ++ [11]) ⟨[], [], 0, false⟩).err = true) :=
  ⟨rfl, rangeGrid_exact_and_overflow ⟨[], [], 0, false⟩ [7, 9] 11 rfl⟩

/-- C8: an ASCII write that applies the valid-point filter (the range_grid
path, use_camera = false) declares in its emitted header exactly as many
vertices as the number of vertex data lines it writes to the body. -/
theorem ascii_header_count_matches_lines (valid_point : List Nat → Bool) (file_name : String)
    (c : PointCloud2) (origin orientation : List Nat) (precision : Nat) (out : PlyFileContent)
    (hout : writeASCII valid_point file_name c origin orientation precision false =
      (0, some out)) :
    vertexCountOf out.header = some out.asciiRows.length := by
  unfold writeASCII at hout
  by_cases hm : geometryMaskZero (setMaskFromFieldsList (cloudFieldNames c)) = true
  · simp [hm] at hout
  · rw [if_neg hm] at hout
    simp only [Bool.false_eq_true, if_false, Prod.mk.injEq, Option.some.injEq] at hout
    obtain ⟨-, hout⟩ := hout
    subst hout
    unfold writeContentWithRangeGridASCII
    simp [vertexCountOf_generateHeader]

/-- Witness for the header/line-count reconciliation, on the concrete x/y/z
cloud written through the range_grid path. -/
theorem ascii_header_count_matches_lines_witness :
    writeASCII (fun _ => true) "file.ply" xyzCloud [] [] 8 false = (0, some xyzAsciiOut) ∧
      vertexCountOf xyzAsciiOut.header = some xyzAsciiOut.asciiRows.length :=
  ⟨by decide,
    ascii_header_count_matches_lines (fun _ => true) "file.ply" xyzCloud [] [] 8 xyzAsciiOut
      (by decide)⟩

/-- C9: the property names declared in the vertex element of any generated
header coincide, name for name and in order, with the field names the content
serializer emits for every row — both are driven by the same mask computed
from the cloud's field list. -/
theorem mask_header_serializer_consistent (c : PointCloud2) (origin orientation : List Nat)
    (binary use_camera : Bool) (valid_points : Nat) (row : List Nat) :
    headerVertexPropNames (generateHeader c origin orientation binary use_camera valid_points) =
      (serializeRowASCII (emittedFields (setMaskFromFieldsList (cloudFieldNames c)) c.fields)
        (c.fields.zip row)).map Prod.fst := by
  unfold headerVertexPropNames serializeRowASCII
  rw [vertexDecls_generateHeader]
  simp

/-- C10: the two-argument `PLYReader::read` overload returns exactly the
five-output read's result code and its cloud, discarding the origin,
orientation and version outputs. -/
theorem read2_refines_read (input : PlyInput) :
    read2 input = ((PLYReader.read input).res, (PLYReader.read input).cloud) := rfl
